import Mathlib

/-!
Verification of the replica synchronization core of the repository
(`modules/sync.py`) against its natural-language specification.

The embedding is shallow:

* remote catalog entries (`RemoteFile`) model the dictionaries returned by
  the remote store listing, with the optional fields `modifiedTimeEpoch`
  and `size` read exactly the way `sync.py` reads them
  (`float(f.get("modifiedTimeEpoch", 0) or 0)`, `int(r.get("size", 0) or 0)`);
* the local filesystem is a map from path strings to optional files, a file
  being its modification time (a rational, standing for the float mtime)
  together with its content bytes;
* the fallible remote collaborator (`gdrive.list_files`,
  `gdrive.download_file`, `gdrive.upload_file`) and the outcome of every
  `os.replace` attempt are supplied by an environment record, so that each
  run of the orchestrator or of `_safe_replace` is a pure function of the
  initial filesystem and that environment.
-/

deriving instance DecidableEq for Except

namespace TakeoutSync

/-- The three possible synchronization actions of `newest_wins_sync`. -/
inductive Action where
  | download
  | upload
  | noop
deriving DecidableEq

/-- Errors raised by the synchronization core.  `permission k` stands for a
`PermissionError` instance (the tag `k` distinguishes distinct instances),
`notFound` for `FileNotFoundError`, `ioEmpty` for the `IOError` raised on an
empty downloaded temp file, `transport k` for a remote-API failure and
`other k` for any other exception. -/
inductive Err where
  | permission (k : Nat)
  | notFound
  | ioEmpty
  | transport (k : Nat)
  | other (k : Nat)
deriving DecidableEq

/-- One entry of the remote listing, as consumed by `_pick_remote_db` and
`newest_wins_sync`.  `modifiedTimeEpoch` and `size` are optional because the
Python code reads them with `dict.get` defaults. -/
structure RemoteFile where
  name : String
  id : String
  modifiedTimeEpoch : Option ℚ
  size : Option Nat
deriving DecidableEq

/-- `float(f.get("modifiedTimeEpoch", 0) or 0)`: a missing (or falsy, i.e.
zero) modified time is read as `0`. -/
def remoteEpoch (f : RemoteFile) : ℚ :=
  f.modifiedTimeEpoch.getD 0

/-- `int(remote.get("size", 0) or 0)`: a missing size is read as `0`. -/
def remoteSize (f : RemoteFile) : Nat :=
  f.size.getD 0

/-- Character-wise lowering of a string, embedding Python's `str.lower()`
for the ASCII names involved here. -/
def strLower (s : String) : String :=
  ⟨s.data.map Char.toLower⟩

/-- `s.endswith(suf)` as a suffix test on the underlying character lists. -/
def strEndsWith (s suf : String) : Bool :=
  List.isSuffixOf suf.data s.data

/-- The fixed suffix `".db"` used by the candidate filter. -/
def dbSuffix : String := ".db"

/-- The filter `str(f.get("name","")).lower().endswith(".db")` applied by
`_pick_remote_db` to every remote entry. -/
def isDbName (f : RemoteFile) : Bool :=
  strEndsWith (strLower f.name) dbSuffix

/-- `dbs = [f for f in files if str(f.get("name","")).lower().endswith(".db")]`. -/
def dbFilter (files : List RemoteFile) : List RemoteFile :=
  files.filter isDbName

/-- Python's `max(dbs, key=...)` over `modifiedTimeEpoch`: the running best
is replaced only by a strictly greater key, so the first maximal element of
the list wins. -/
def maxByEpoch (best : RemoteFile) : List RemoteFile → RemoteFile
  | [] => best
  | f :: fs => maxByEpoch (if remoteEpoch best < remoteEpoch f then f else best) fs

/-- `_pick_remote_db(files, expected_name)` (sync.py lines 61-72): keep only
`.db`-named entries; if none remain there is no candidate; otherwise prefer
the first entry whose name equals `expected_name` (when that argument is
truthy) and fall back to the entry with the greatest `modifiedTimeEpoch`. -/
def pickByName (dbs : List RemoteFile) (expectedName : Option String) :
    Option RemoteFile :=
  match expectedName with
  | some en => if en = "" then none else dbs.find? (fun f => f.name == en)
  | none => none

def pickRemoteDb (files : List RemoteFile) (expectedName : Option String) :
    Option RemoteFile :=
  match dbFilter files with
  | [] => none
  | d :: ds =>
    match pickByName (d :: ds) expectedName with
    | some f => some f
    | none => some (maxByEpoch d ds)

/-- The local replica as observed by `newest_wins_sync`: `none` when the
file is absent, otherwise its mtime and size.  `_local_mtime` yields `0`
for an absent file. -/
def localEpochOf (l : Option (ℚ × Nat)) : ℚ :=
  match l with
  | some p => p.1
  | none => 0

/-- `int(os.path.getsize(dst)) if os.path.exists(dst) else 0`. -/
def localSizeOf (l : Option (ℚ × Nat)) : Nat :=
  match l with
  | some p => p.2
  | none => 0

/-- The direction decision of `newest_wins_sync` (sync.py lines 99 and 136),
for a present remote candidate: download when the remote is newer or when
the remote clock is unknown and its non-zero size differs; otherwise upload
when the local is newer or when the remote clock is unknown and the
non-zero local size differs; otherwise no-op. -/
def decideDirection (localEpoch : ℚ) (localSize : Nat) (re : ℚ) (rs : Nat) :
    Action :=
  if re > localEpoch ∨ (re = 0 ∧ 0 < rs ∧ rs ≠ localSize) then Action.download
  else if localEpoch > re ∨ (re = 0 ∧ 0 < localSize ∧ localSize ≠ rs) then Action.upload
  else Action.noop

/-- The complete decision of `newest_wins_sync` as a function of the local
replica state and the (possibly absent) selected remote candidate's
attributes, exactly as computed by sync.py lines 86-141. -/
def codeDecision (l : Option (ℚ × Nat)) (r : Option (ℚ × Nat)) : Action :=
  match r with
  | none => if l.isSome then Action.upload else Action.noop
  | some p => decideDirection (localEpochOf l) (localSizeOf l) p.1 p.2

/-- Rows 3-7 of the §4.2 decision table of the specification, applied in
order, for a present remote candidate with epoch `re` and size `rs`.  This
definition is written from the specification's words, to be compared with
`decideDirection`, which is written from the source. -/
def specTableCore (l : Option (ℚ × Nat)) (re : ℚ) (rs : Nat) : Action :=
  if re > localEpochOf l then Action.download
  else if re = 0 ∧ 0 < rs ∧ rs ≠ localSizeOf l then Action.download
  else if localEpochOf l > re then Action.upload
  else if (localEpochOf l = 0 ∨ l.isNone) ∧ 0 < localSizeOf l ∧ localSizeOf l ≠ rs ∧ ¬ re > localEpochOf l
    then Action.upload
  else Action.noop

/-- The full §4.2 decision table of the specification, rows applied in
order, including the no-candidate rows.  Written from the specification's
words, to be compared with `codeDecision`, which is written from the
source. -/
def specTableDecision (l : Option (ℚ × Nat)) (r : Option (ℚ × Nat)) : Action :=
  match r with
  | none => if l.isSome then Action.upload else Action.noop
  | some p => specTableCore l p.1 p.2

/-- One local file: modification time and content bytes.  Its size, as
`os.path.getsize` reports it, is the length of `bytes`. -/
structure FileData where
  mtime : ℚ
  bytes : List Nat
deriving DecidableEq

/-- The local filesystem: a map from absolute path strings to files. -/
def Fs : Type := String → Option FileData

/-- Point update of the filesystem (file creation, replacement or, with
`none`, removal). -/
def fsSet (fs : Fs) (p : String) (v : Option FileData) : Fs :=
  fun q => if q = p then v else fs q

/-- Effect of a successful `os.replace(src, dst)`: the file at `src` is
moved onto `dst`. -/
def fsMove (src dst : String) (fs : Fs) : Fs :=
  match fs src with
  | some d => fsSet (fsSet fs src none) dst (some d)
  | none => fs

/-- `_cleanup_sqlite_sidecars(dst)` (sync.py lines 6-13): best-effort
removal of the `-journal`, `-wal` and `-shm` sidecar files. -/
def cleanupSidecars (dst : String) (fs : Fs) : Fs :=
  fsSet (fsSet (fsSet fs (dst ++ "-journal") none) (dst ++ "-wal") none) (dst ++ "-shm") none

/-- Outcome of one `os.replace(src, dst)` attempt inside `_safe_replace`:
success, a `PermissionError` (lock contention, tag `k`), or any other
exception. -/
inductive ReplaceStep where
  | ok
  | permDenied (k : Nat)
  | hardFail (e : Err)
deriving DecidableEq

/-- Environment of one `_safe_replace` run: the outcome of each rename
attempt (indexed by attempt number) and of the three steps of the
shadow-copy fallback (`none` = the step succeeds), plus the wall-clock
mtime stamped on a freshly copied shadow file. -/
structure SafeEnv where
  attemptOut : Nat → ReplaceStep
  copyOut : Option Err
  shadowReplaceOut : Option Err
  removeSrcOut : Option Err
  now : ℚ

/-- How the retry loop of `_safe_replace` ended. -/
inductive LoopExit where
  | success (fs : Fs)
  | raised (e : Err) (fs : Fs)
  | exhausted (lastErr : Option Err) (fs : Fs)

/-- Result of the retry loop: how it ended, how many `os.replace` attempts
were made, and the list of back-off delays slept. -/
structure LoopState where
  exit : LoopExit
  attempts : Nat
  sleeps : List ℚ

/-- The retry loop of `_safe_replace` (sync.py lines 32-41): each attempt
cleans the sidecars, clears the read-only attribute (no effect on our file
model) and tries `os.replace`; a `PermissionError` is recorded as
`last_err` and retried after sleeping `base_delay * 2 ** attempt`; any
other error propagates at once; running out of attempts exits with the
last contention error. -/
def safeLoop (env : SafeEnv) (src dst : String) (b : ℚ) :
    Nat → Nat → Option Err → Fs → LoopState
  | 0, _, lastErr, fs => ⟨LoopExit.exhausted lastErr fs, 0, []⟩
  | r + 1, i, _, fs =>
    let fs1 := cleanupSidecars dst fs
    match env.attemptOut i with
    | ReplaceStep.ok => ⟨LoopExit.success (fsMove src dst fs1), 1, []⟩
    | ReplaceStep.hardFail e => ⟨LoopExit.raised e fs1, 1, []⟩
    | ReplaceStep.permDenied k =>
      let rest := safeLoop env src dst b r (i + 1) (some (Err.permission k)) fs1
      ⟨rest.exit, rest.attempts + 1, (b * 2 ^ i) :: rest.sleeps⟩

/-- Result of `_safe_replace`: the raised error (if any), the final
filesystem, and the loop's attempt count and sleep trace. -/
structure SRResult where
  res : Except Err Unit
  fs : Fs
  attempts : Nat
  sleeps : List ℚ

/-- The fixed suffix of the shadow path used by the fallback. -/
def shadowSuffix : String := ".shadow_copy"

/-- The shadow-copy fallback of `_safe_replace` (sync.py lines 43-53):
clean sidecars and writability again, copy the source bytes to
`dst + ".shadow_copy"` (stamped with the current time, since
`shutil.copyfile` does not preserve mtimes), rename the shadow onto the
destination and remove the source; the first failing step raises
`last_err or e`. -/
def safeReplaceFallback (env : SafeEnv) (src dst : String) (lastErr : Option Err)
    (fs : Fs) : Except Err Unit × Fs :=
  let fs1 := cleanupSidecars dst fs
  match env.copyOut with
  | some e => (Except.error (lastErr.getD e), fs1)
  | none =>
    let fs2 := match fs1 src with
      | some d => fsSet fs1 (dst ++ shadowSuffix) (some ⟨env.now, d.bytes⟩)
      | none => fs1
    match env.shadowReplaceOut with
    | some e => (Except.error (lastErr.getD e), fs2)
    | none =>
      let fs3 := fsMove (dst ++ shadowSuffix) dst fs2
      match env.removeSrcOut with
      | some e => (Except.error (lastErr.getD e), fs3)
      | none => (Except.ok (), fsSet fs3 src none)

/-- `_safe_replace(src, dst, retries, base_delay)` (sync.py lines 24-53):
fail fast when the source is missing; otherwise run the retry loop and, if
it exhausts its attempts, the shadow-copy fallback. -/
def safeReplace (env : SafeEnv) (src dst : String) (fs : Fs) (retries : Nat)
    (b : ℚ) : SRResult :=
  match fs src with
  | none => ⟨Except.error Err.notFound, fs, 0, []⟩
  | some _ =>
    let loop := safeLoop env src dst b retries 0 none fs
    match loop.exit with
    | LoopExit.success fs2 => ⟨Except.ok (), fs2, loop.attempts, loop.sleeps⟩
    | LoopExit.raised e fs2 => ⟨Except.error e, fs2, loop.attempts, loop.sleeps⟩
    | LoopExit.exhausted lastErr fs2 =>
      let fb := safeReplaceFallback env src dst lastErr fs2
      ⟨fb.1, fb.2, loop.attempts, loop.sleeps⟩

/-- Environment of one `newest_wins_sync` run: the outcome of the remote
listing, of `gdrive.download_file` for the selected candidate (`ok none`
models a download that raises nothing yet writes no file, `ok (some bs)` a
download writing content `bs`), the mtime the filesystem stamps on the
written temp file, the outcome of `gdrive.upload_file`, and the
environment of the inner `_safe_replace`. -/
structure SyncEnv where
  listing : Except Err (List RemoteFile)
  dl : Except Err (Option (List Nat))
  dlMtime : ℚ
  up : Except Err Unit
  safe : SafeEnv

/-- The fixed name of the download temp file (sync.py line 101). -/
def tmpName : String := "takeout.db.download.tmp"

/-- `os.path.abspath(local_db)`, decomposed as directory plus base name. -/
def dstPath (dir base : String) : String := dir ++ "/" ++ base

/-- `os.path.join(tmp_dir, "takeout.db.download.tmp")`. -/
def tmpPath (dir : String) : String := dir ++ "/" ++ tmpName

/-- Result of one `newest_wins_sync` run: the returned action (or raised
error) and the final filesystem. -/
structure SyncResult where
  res : Except Err Action
  fs : Fs

/-- `_local_mtime(p)` (sync.py lines 55-59): `0.0` for an absent file. -/
def fsEpoch (fs : Fs) (p : String) : ℚ :=
  match fs p with
  | some d => d.mtime
  | none => 0

/-- `int(os.path.getsize(p)) if os.path.exists(p) else 0`. -/
def fsSize (fs : Fs) (p : String) : Nat :=
  match fs p with
  | some d => d.bytes.length
  | none => 0

/-- `newest_wins_sync(local_db, folder_id)` (sync.py lines 74-141): list
the remote location, pick a candidate, compare times and sizes, then
download into the temp path followed by `_safe_replace` (with best-effort
temp cleanup), or upload, or do nothing. -/
def newestWinsSync (env : SyncEnv) (dir base : String) (fs : Fs) : SyncResult :=
  match env.listing with
  | Except.error e => ⟨Except.error e, fs⟩
  | Except.ok files =>
    match pickRemoteDb files (some base) with
    | none =>
      if (fs (dstPath dir base)).isSome then
        match env.up with
        | Except.error e => ⟨Except.error e, fs⟩
        | Except.ok _ => ⟨Except.ok Action.upload, fs⟩
      else ⟨Except.ok Action.noop, fs⟩
    | some r =>
      match decideDirection (fsEpoch fs (dstPath dir base)) (fsSize fs (dstPath dir base))
          (remoteEpoch r) (remoteSize r) with
      | Action.download =>
        let fs1 := fsSet fs (tmpPath dir) none
        match env.dl with
        | Except.error e => ⟨Except.error e, fs1⟩
        | Except.ok none => ⟨Except.error Err.notFound, fs1⟩
        | Except.ok (some bs) =>
          let fs2 := fsSet fs1 (tmpPath dir) (some ⟨env.dlMtime, bs⟩)
          if bs.length = 0 then ⟨Except.error Err.ioEmpty, fsSet fs2 (tmpPath dir) none⟩
          else
            let sr := safeReplace env.safe (tmpPath dir) (dstPath dir base) fs2 8 (1 / 4)
            let fs3 := if (sr.fs (tmpPath dir)).isSome then fsSet sr.fs (tmpPath dir) none else sr.fs
            match sr.res with
            | Except.error e => ⟨Except.error e, fs3⟩
            | Except.ok _ => ⟨Except.ok Action.download, fs3⟩
      | Action.upload =>
        match env.up with
        | Except.error e => ⟨Except.error e, fs⟩
        | Except.ok _ => ⟨Except.ok Action.upload, fs⟩
      | Action.noop => ⟨Except.ok Action.noop, fs⟩

/-! Concrete fixtures used by the individual claims' witnesses and
counterexamples.  Each claim has its own fixtures. -/

def c2Db : String := "takeout.db"

def c2Rid : String := "rid-2"

def c2Dir : String := "/data"

def c2Remote : RemoteFile := ⟨c2Db, c2Rid, some 0, some 500⟩

def c2Fs : Fs := fun p => if p = dstPath c2Dir c2Db then some ⟨100, List.replicate 500 0⟩ else none

def c2Safe : SafeEnv := ⟨fun _ => ReplaceStep.ok, none, none, none, 0⟩

def c2Env : SyncEnv := ⟨Except.ok [c2Remote], Except.ok none, 0, Except.ok (), c2Safe⟩

def c3Name : String := "a.db"

def c3Rid1 : String := "rid-3a"

def c3Rid2 : String := "rid-3b"

def c3F1 : RemoteFile := ⟨c3Name, c3Rid1, some 1, some 10⟩

def c3F2 : RemoteFile := ⟨c3Name, c3Rid2, some 5, some 10⟩

def c3Files : List RemoteFile := [c3F1, c3F2]

def c3WName : String := "w.db"

def c3WOther : String := "z.db"

def c3WRid1 : String := "rid-3w1"

def c3WRid2 : String := "rid-3w2"

def c3WF1 : RemoteFile := ⟨c3WOther, c3WRid1, some 7, some 10⟩

def c3WF2 : RemoteFile := ⟨c3WName, c3WRid2, some 2, some 10⟩

def c3WFiles : List RemoteFile := [c3WF1, c3WF2]

def c3WMiss : String := "nomatch.db"

def c4Db : String := "takeout.db"

def c4Rid : String := "rid-4"

def c4Dir : String := "/home"

def c4Remote : RemoteFile := ⟨c4Db, c4Rid, some 100, some 3⟩

def c4Fs : Fs := fun _ => none

def c4Safe : SafeEnv := ⟨fun _ => ReplaceStep.ok, none, none, none, 0⟩

def c4Env : SyncEnv := ⟨Except.ok [c4Remote], Except.ok (some [1, 2, 3]), 150, Except.ok (), c4Safe⟩

def c4Run1 : SyncResult := newestWinsSync c4Env c4Dir c4Db c4Fs

def c4Run2 : SyncResult := newestWinsSync c4Env c4Dir c4Db c4Run1.fs

def c4WDir : String := "/w4"

def c4WDb : String := "w4.db"

def c4WRid : String := "rid-4w"

def c4WRemote : RemoteFile := ⟨c4WDb, c4WRid, some 100, some 3⟩

def c4WFs : Fs := fun p => if p = dstPath c4WDir c4WDb then some ⟨100, [1, 2, 3]⟩ else none

def c4WFs2 : Fs := fun p => if p = dstPath c4WDir c4WDb then some ⟨150, [1, 2, 3]⟩ else none

def c4WSafe : SafeEnv := ⟨fun _ => ReplaceStep.ok, none, none, none, 0⟩

def c4WEnv : SyncEnv := ⟨Except.ok [c4WRemote], Except.ok none, 0, Except.ok (), c4WSafe⟩

def c5Dir : String := "/d5"

def c5Base : String := "takeout.db.download.tmp"

def c5RName : String := "a.db"

def c5Rid : String := "rid-5"

def c5Remote : RemoteFile := ⟨c5RName, c5Rid, some 100, some 3⟩

def c5Fs : Fs := fun p => if p = dstPath c5Dir c5Base then some ⟨50, [1, 2, 3]⟩ else none

def c5Safe : SafeEnv := ⟨fun _ => ReplaceStep.ok, none, none, none, 0⟩

def c5Env : SyncEnv := ⟨Except.ok [c5Remote], Except.ok (some []), 120, Except.ok (), c5Safe⟩

def c5WDir : String := "/w5"

def c5WDb : String := "w5.db"

def c5WRid : String := "rid-5w"

def c5WRemote : RemoteFile := ⟨c5WDb, c5WRid, some 9, some 4⟩

def c5WFs : Fs := fun p => if p = dstPath c5WDir c5WDb then some ⟨1, [7]⟩ else none

def c5WSafe : SafeEnv := ⟨fun _ => ReplaceStep.ok, none, none, none, 0⟩

def c5WEnv : SyncEnv := ⟨Except.ok [c5WRemote], Except.ok (some []), 11, Except.ok (), c5WSafe⟩

def c6Src : String := "/t6/s.tmp"

def c6Dst : String := "/t6/d.db"

def c6D : FileData := ⟨3, [1]⟩

def c6Fs : Fs := fun p => if p = c6Src then some c6D else none

def c6Env : SafeEnv := ⟨fun i => ReplaceStep.permDenied i, some (Err.other 1), none, none, 0⟩

def c7Src : String := "/t7/s.tmp"

def c7Dst : String := "/t7/d.db"

def c7D : FileData := ⟨4, [1]⟩

def c7Fs : Fs := fun p => if p = c7Src then some c7D else none

def c7E : Err := Err.other 5

def c7Env : SafeEnv :=
  ⟨fun i => if i = 2 then ReplaceStep.hardFail c7E else ReplaceStep.permDenied i, none, none, none, 0⟩

def c8Src : String := "/t8/s.tmp"

def c8Dst : String := "/t8/d.db"

def c8Fs : Fs := fun p => if p = c8Dst then some ⟨1, [9]⟩ else none

def c8Env : SafeEnv := ⟨fun _ => ReplaceStep.ok, none, none, none, 0⟩

def c8CSrc : String := "/t8c/s.tmp"

def c8CDst : String := "/t8c/d.db"

def c8CFs : Fs := fun p =>
  if p = c8CSrc then some ⟨7, []⟩
  else if p = c8CDst then some ⟨1, [9]⟩
  else if p = c8CDst ++ "-journal" then some ⟨1, []⟩
  else none

def c8CEnv : SafeEnv := ⟨fun _ => ReplaceStep.ok, none, none, none, 0⟩

def c9Dir : String := "/d9"

def c9Base : String := "takeout.db.download.tmp"

def c9RName : String := "b.db"

def c9Rid : String := "rid-9"

def c9Remote : RemoteFile := ⟨c9RName, c9Rid, some 100, some 3⟩

def c9Fs : Fs := fun p => if p = dstPath c9Dir c9Base then some ⟨50, [1, 2, 3]⟩ else none

def c9Safe : SafeEnv := ⟨fun _ => ReplaceStep.ok, none, none, none, 0⟩

def c9Env : SyncEnv := ⟨Except.ok [c9Remote], Except.error (Err.transport 9), 0, Except.ok (), c9Safe⟩

def c9WDir : String := "/w9"

def c9WDb : String := "w9.db"

def c9WRid : String := "rid-9w"

def c9WRemote : RemoteFile := ⟨c9WDb, c9WRid, some 9, some 4⟩

def c9WFs : Fs := fun p => if p = dstPath c9WDir c9WDb then some ⟨1, [7]⟩ else none

def c9WSafe : SafeEnv := ⟨fun _ => ReplaceStep.ok, none, none, none, 0⟩

def c9WEnv : SyncEnv := ⟨Except.ok [c9WRemote], Except.error (Err.transport 1), 0, Except.ok (), c9WSafe⟩

def c10Name : String := "c10.txt"

def c10DbName : String := "c10.db"

def c10Rid1 : String := "rid-10a"

def c10Rid2 : String := "rid-10b"

def c10F1 : RemoteFile := ⟨c10Name, c10Rid1, some 50, some 4⟩

def c10F2 : RemoteFile := ⟨c10DbName, c10Rid2, some 1, some 4⟩

def c10Files : List RemoteFile := [c10F1, c10F2]

def c10OnlyTxt : List RemoteFile := [c10F1]

lemma decideDirection_eq_table (l : Option (ℚ × Nat)) (re : ℚ) (rs : Nat) :
    decideDirection (localEpochOf l) (localSizeOf l) re rs = specTableCore l re rs := by
  unfold specTableCore decideDirection
  set le := localEpochOf l with hle
  set ls := localSizeOf l with hls
  by_cases hA : re > le
  · rw [if_pos (Or.inl hA), if_pos hA]
  · by_cases hB : re = 0 ∧ 0 < rs ∧ rs ≠ ls
    · rw [if_pos (Or.inr hB), if_neg hA, if_pos hB]
    · have hAB : ¬ (re > le ∨ (re = 0 ∧ 0 < rs ∧ rs ≠ ls)) := by tauto
      rw [if_neg hAB, if_neg hA, if_neg hB]
      by_cases hC : le > re
      · rw [if_pos (Or.inl hC), if_pos hC]
      · have heq : le = re := le_antisymm (not_lt.mp hC) (not_lt.mp hA)
        by_cases hD : re = 0 ∧ 0 < ls ∧ ls ≠ rs
        · have hE : (le = 0 ∨ l.isNone) ∧ 0 < ls ∧ ls ≠ rs ∧ ¬ re > le :=
            ⟨Or.inl (heq.trans hD.1), hD.2.1, hD.2.2, hA⟩
          rw [if_pos (Or.inr hD), if_neg hC, if_pos hE]
        · have hE : ¬ ((le = 0 ∨ l.isNone) ∧ 0 < ls ∧ ls ≠ rs ∧ ¬ re > le) := by
            rintro ⟨h1 | h1, h2, h3, -⟩
            · exact hD ⟨heq.symm.trans h1, h2, h3⟩
            · match l, h1 with
              | none, _ =>
                rw [hls] at h2
                simp [localSizeOf] at h2
          have hCD : ¬ (le > re ∨ (re = 0 ∧ 0 < ls ∧ ls ≠ rs)) := by tauto
          rw [if_neg hCD, if_neg hC, if_neg hE]

/-- Claim C1: for every combination of local state and selected remote
candidate attributes, the decision computed by `newest_wins_sync` equals
the §4.2 decision table with rows applied in order; in particular, when a
remote candidate is present, none of the earlier rows fires (the remote
epoch is not greater, the unknown-remote-clock download heuristic does not
apply, and the local epoch is not greater) and the local epoch is `0` with
a positive local size differing from the remote size, the action is
Upload. -/
theorem newest_wins_matches_decision_table :
    (∀ (l r : Option (ℚ × Nat)), codeDecision l r = specTableDecision l r) ∧
    (∀ (m : ℚ) (ls : Nat) (re : ℚ) (rs : Nat),
      ¬ re > m → ¬ (re = 0 ∧ 0 < rs ∧ rs ≠ ls) → ¬ m > re →
      m = 0 ∧ 0 < ls ∧ ls ≠ rs →
      codeDecision (some (m, ls)) (some (re, rs)) = Action.upload) := by
  constructor
  · intro l r
    match r with
    | none => rfl
    | some p =>
      show decideDirection (localEpochOf l) (localSizeOf l) p.1 p.2 = specTableCore l p.1 p.2
      exact decideDirection_eq_table l p.1 p.2
  · intro m ls re rs hA hB hC hrow
    have hre : re = 0 := le_antisymm (by simpa [hrow.1] using hA) (by simpa [hrow.1] using hC)
    unfold codeDecision decideDirection localEpochOf localSizeOf
    simp only
    rw [if_neg, if_pos]
    · exact Or.inr ⟨hre, hrow.2.1, hrow.2.2⟩
    · exact fun h => h.elim hA (fun h' => hB h')

/-- Witness for C1: a concrete instance (local mtime `0`, size `5`; remote
epoch `0`, size `0`) where every hypothesis of the second conjunct holds
and the decision is Upload. -/
theorem newest_wins_matches_decision_table_witness :
    (¬ (0:ℚ) > 0 ∧ ¬ ((0:ℚ) = 0 ∧ 0 < (0:Nat) ∧ (0:Nat) ≠ 5) ∧
      ((0:ℚ) = 0 ∧ 0 < 5 ∧ (5:Nat) ≠ 0)) ∧
    codeDecision (some ((0:ℚ), 5)) (some ((0:ℚ), 0)) = Action.upload :=
  ⟨⟨by decide, by decide, by decide⟩,
    newest_wins_matches_decision_table.2 0 5 0 0 (by decide) (by decide)
      (by decide) ⟨rfl, by decide, by decide⟩⟩


lemma cleanupSidecars_idem (dst : String) (fs : Fs) :
    cleanupSidecars dst (cleanupSidecars dst fs) = cleanupSidecars dst fs := by
  funext q
  unfold cleanupSidecars fsSet
  split_ifs <;> rfl

lemma dstPath_ne_tmpPath (dir base : String) (hb : base ≠ tmpName) :
    dstPath dir base ≠ tmpPath dir := by
  intro h
  apply hb
  unfold dstPath tmpPath at h
  have h2 : (dir ++ "/").data ++ base.data = (dir ++ "/").data ++ tmpName.data := by
    rw [← String.data_append, ← String.data_append, h]
  exact String.ext (List.append_cancel_left h2)

lemma safeLoop_attempts_le (env : SafeEnv) (src dst : String) (b : ℚ) :
    ∀ r i le fs, (safeLoop env src dst b r i le fs).attempts ≤ r := by
  intro r
  induction r with
  | zero => intro i le fs; simp [safeLoop]
  | succ n ih =>
    intro i le fs
    cases h : env.attemptOut i with
    | ok => simp [safeLoop, h]
    | hardFail e => simp [safeLoop, h]
    | permDenied k =>
      simp only [safeLoop, h]
      exact Nat.succ_le_succ (ih (i + 1) (some (Err.permission k)) (cleanupSidecars dst fs))

lemma cons_pow_sleeps (b : ℚ) (i n : Nat) :
    (b * 2 ^ i) :: (List.range n).map (fun t => b * 2 ^ (i + 1 + t)) =
      (List.range (n + 1)).map (fun t => b * 2 ^ (i + t)) := by
  rw [List.range_succ_eq_map, List.map_cons, List.map_map]
  have h2 : (List.range n).map (fun t => b * 2 ^ (i + 1 + t)) =
      (List.range n).map ((fun t => b * 2 ^ (i + t)) ∘ Nat.succ) :=
    List.map_congr_left (fun t ht => by
      show b * 2 ^ (i + 1 + t) = b * 2 ^ (i + (t + 1))
      rw [show i + 1 + t = i + (t + 1) from by omega])
  rw [h2, Nat.add_zero]

lemma safeLoop_perm_step (env : SafeEnv) (src dst : String) (b : ℚ) (r i : Nat)
    (le : Option Err) (fs : Fs) (kk : Nat)
    (h : env.attemptOut i = ReplaceStep.permDenied kk) :
    safeLoop env src dst b (r + 1) i le fs =
      ⟨(safeLoop env src dst b r (i + 1) (some (Err.permission kk)) (cleanupSidecars dst fs)).exit,
        (safeLoop env src dst b r (i + 1) (some (Err.permission kk)) (cleanupSidecars dst fs)).attempts + 1,
        (b * 2 ^ i) ::
          (safeLoop env src dst b r (i + 1) (some (Err.permission kk)) (cleanupSidecars dst fs)).sleeps⟩ := by
  simp only [safeLoop, h]

lemma safeLoop_all_perm (env : SafeEnv) (src dst : String) (b : ℚ) (k : Nat → Nat) :
    ∀ r i le fs,
      (∀ j, i ≤ j → j < i + (r + 1) → env.attemptOut j = ReplaceStep.permDenied (k j)) →
      safeLoop env src dst b (r + 1) i le fs =
        ⟨LoopExit.exhausted (some (Err.permission (k (i + r)))) (cleanupSidecars dst fs),
          r + 1, (List.range (r + 1)).map (fun t => b * 2 ^ (i + t))⟩ := by
  intro r
  induction r with
  | zero =>
    intro i le fs h
    have h0 : env.attemptOut i = ReplaceStep.permDenied (k i) := h i le_rfl (by omega)
    simp only [safeLoop, h0]
    simp [List.range_succ]
  | succ n ih =>
    intro i le fs h
    have h0 : env.attemptOut i = ReplaceStep.permDenied (k i) := h i le_rfl (by omega)
    rw [safeLoop_perm_step env src dst b (n + 1) i le fs (k i) h0]
    rw [ih (i + 1) (some (Err.permission (k i))) (cleanupSidecars dst fs)
      (fun j hj1 hj2 => h j (by omega) (by omega))]
    rw [cleanupSidecars_idem]
    have e1 : i + 1 + n = i + (n + 1) := by omega
    rw [e1]
    rw [show ((n + 1 : Nat) + 1) = (n + 1) + 1 from rfl]
    congr 1
    exact cons_pow_sleeps b i (n + 1)

lemma safeLoop_hardFail (env : SafeEnv) (src dst : String) (b : ℚ) (k : Nat → Nat) (e : Err) :
    ∀ m r i le fs, m < r →
      (∀ j, j < m → env.attemptOut (i + j) = ReplaceStep.permDenied (k (i + j))) →
      env.attemptOut (i + m) = ReplaceStep.hardFail e →
      safeLoop env src dst b r i le fs =
        ⟨LoopExit.raised e (cleanupSidecars dst fs), m + 1,
          (List.range m).map (fun t => b * 2 ^ (i + t))⟩ := by
  intro m
  induction m with
  | zero =>
    intro r i le fs hr hp hf
    obtain ⟨r2, rfl⟩ : ∃ r2, r = r2 + 1 := ⟨r - 1, by omega⟩
    rw [Nat.add_zero] at hf
    simp only [safeLoop, hf]
    simp
  | succ m ih =>
    intro r i le fs hr hp hf
    obtain ⟨r2, rfl⟩ : ∃ r2, r = r2 + 1 := ⟨r - 1, by omega⟩
    have h0 : env.attemptOut i = ReplaceStep.permDenied (k i) := by
      have := hp 0 (by omega)
      rwa [Nat.add_zero] at this
    rw [safeLoop_perm_step env src dst b r2 i le fs (k i) h0]
    rw [ih r2 (i + 1) (some (Err.permission (k i))) (cleanupSidecars dst fs) (by omega)
      (fun j hj => by
        have := hp (j + 1) (by omega)
        rwa [show i + (j + 1) = i + 1 + j from by omega] at this)
      (by rwa [show i + 1 + m = i + (m + 1) from by omega])]
    rw [cleanupSidecars_idem]
    congr 1
    exact cons_pow_sleeps b i m

lemma safeReplaceFallback_err (env : SafeEnv) (src dst : String) (e0 : Err) (fs : Fs)
    (h : env.copyOut.isSome = true ∨ env.shadowReplaceOut.isSome = true ∨
      env.removeSrcOut.isSome = true) :
    (safeReplaceFallback env src dst (some e0) fs).1 = Except.error e0 := by
  unfold safeReplaceFallback
  cases hc : env.copyOut with
  | some e => simp
  | none =>
    cases hs : env.shadowReplaceOut with
    | some e => simp
    | none =>
      cases hr : env.removeSrcOut with
      | some e => simp
      | none => simp [hc, hs, hr] at h

lemma maxByEpoch_mem : ∀ (ds : List RemoteFile) (d : RemoteFile), maxByEpoch d ds ∈ d :: ds := by
  intro ds
  induction ds with
  | nil => intro d; simp [maxByEpoch]
  | cons f fs ih =>
    intro d
    simp only [maxByEpoch]
    by_cases h : remoteEpoch d < remoteEpoch f
    · rw [if_pos h]
      have := ih f
      simp only [List.mem_cons] at this ⊢
      tauto
    · rw [if_neg h]
      have := ih d
      simp only [List.mem_cons] at this ⊢
      tauto

lemma maxByEpoch_le : ∀ (ds : List RemoteFile) (d g : RemoteFile), g ∈ d :: ds →
    remoteEpoch g ≤ remoteEpoch (maxByEpoch d ds) := by
  intro ds
  induction ds with
  | nil =>
    intro d g hg
    simp only [List.mem_cons, List.not_mem_nil, or_false] at hg
    rw [hg]
    exact le_rfl
  | cons f fs ih =>
    intro d g hg
    rcases List.mem_cons.mp hg with rfl | hg2
    · by_cases h : remoteEpoch g < remoteEpoch f
      · simp only [maxByEpoch, if_pos h]
        exact le_trans h.le (ih f f (List.mem_cons_self f fs))
      · simp only [maxByEpoch, if_neg h]
        exact ih g g (List.mem_cons_self g fs)
    · rcases List.mem_cons.mp hg2 with rfl | hg3
      · by_cases h : remoteEpoch d < remoteEpoch g
        · simp only [maxByEpoch, if_pos h]
          exact ih g g (List.mem_cons_self g fs)
        · simp only [maxByEpoch, if_neg h]
          exact le_trans (not_lt.mp h) (ih d d (List.mem_cons_self d fs))
      · by_cases h : remoteEpoch d < remoteEpoch f
        · simp only [maxByEpoch, if_pos h]
          exact ih f g (List.mem_cons_of_mem f hg3)
        · simp only [maxByEpoch, if_neg h]
          exact ih d g (List.mem_cons_of_mem d hg3)

lemma mem_dbFilter_isDb (files : List RemoteFile) (f : RemoteFile) (h : f ∈ dbFilter files) :
    isDbName f = true :=
  (List.mem_filter.mp h).2

lemma pickRemoteDb_nil (files : List RemoteFile) (en : Option String) (h : dbFilter files = []) :
    pickRemoteDb files en = none := by
  simp [pickRemoteDb, h]

lemma pickByName_some (dbs : List RemoteFile) (en : Option String) (g : RemoteFile)
    (h : pickByName dbs en = some g) :
    g ∈ dbs ∧ ∃ en2, en = some en2 ∧ g.name = en2 := by
  cases en with
  | none => simp [pickByName] at h
  | some en2 =>
    simp only [pickByName] at h
    by_cases he : en2 = ""
    · rw [if_pos he] at h
      cases h
    · rw [if_neg he] at h
      exact ⟨List.mem_of_find?_eq_some h, en2, rfl, by simpa using List.find?_some h⟩

lemma pickRemoteDb_mem (files : List RemoteFile) (en : Option String) (f : RemoteFile)
    (h : pickRemoteDb files en = some f) : f ∈ dbFilter files := by
  cases hdb : dbFilter files with
  | nil => rw [pickRemoteDb_nil files en hdb] at h; cases h
  | cons d ds =>
    simp only [pickRemoteDb, hdb] at h
    cases hby : pickByName (d :: ds) en with
    | some g =>
      rw [hby] at h
      have h2 : some g = some f := h
      cases h2
      exact (pickByName_some (d :: ds) en f hby).1
    | none =>
      rw [hby] at h
      have h2 : some (maxByEpoch d ds) = some f := h
      cases h2
      exact maxByEpoch_mem ds d

set_option maxRecDepth 8000

/-- Claim C2 (counterexample): on the concrete input of the claim — local
file `{mtime 100, size 500}`, selected remote candidate `{modifiedTime 0,
size 500}` — `newest_wins_sync` does not return NoOp: the `local_epoch >
remote_epoch` branch (sync.py line 136) fires. -/
theorem scenario_c_counterexample :
    (newestWinsSync c2Env c2Dir c2Db c2Fs).res ≠ Except.ok Action.noop := by decide

/-- Claim C2 (amended): on the concrete input with local `{mtime 100,
size 500}` and remote `{modifiedTime 0, size 500}`, `newest_wins_sync`
returns Upload — the local mtime is greater than the (unknown, hence zero)
remote time, which matches row 5 of the §4.2 table, not the NoOp row. -/
theorem scenario_c_returns_upload :
    (newestWinsSync c2Env c2Dir c2Db c2Fs).res = Except.ok Action.upload := by decide

/-- Claim C3 (counterexample): with two remote entries both exactly
matching the local name and the second carrying the strictly greatest
modifiedTime, `_pick_remote_db` returns the first exact match in catalog
order, not the entry with the greatest modifiedTime. -/
theorem pick_remote_db_tie_counterexample :
    pickRemoteDb c3Files (some c3Name) = some c3F1 ∧
    c3F1.name = c3Name ∧ c3F2.name = c3Name ∧ c3F2 ∈ dbFilter c3Files ∧
    remoteEpoch c3F1 < remoteEpoch c3F2 := by decide

/-- Claim C3 (amended): among the `.db`-named entries, `_pick_remote_db`
returns an entry whose name exactly matches the local file's name whenever
one exists (the first such entry in catalog order — not the one with the
greatest modifiedTime); when no exact match exists it returns an entry
with the greatest modifiedTime (missing time treated as 0); and when the
listing yields zero `.db`-named entries it returns no candidate. -/
theorem pick_remote_db_selection :
    (∀ (files : List RemoteFile) (en : String), en ≠ "" →
      (∃ f ∈ dbFilter files, f.name = en) →
      ∃ f, pickRemoteDb files (some en) = some f ∧ f.name = en ∧ f ∈ dbFilter files) ∧
    (∀ (files : List RemoteFile) (en : String), en ≠ "" →
      (∀ f ∈ dbFilter files, f.name ≠ en) → dbFilter files ≠ [] →
      ∃ f, pickRemoteDb files (some en) = some f ∧ f ∈ dbFilter files ∧
        ∀ g ∈ dbFilter files, remoteEpoch g ≤ remoteEpoch f) ∧
    (∀ (files : List RemoteFile) (en : Option String), dbFilter files = [] →
      pickRemoteDb files en = none) := by
  refine ⟨?_, ?_, ?_⟩
  · intro files en hne hex
    have hnem : dbFilter files ≠ [] := by
      obtain ⟨f, hf, -⟩ := hex
      intro h0
      rw [h0] at hf
      cases hf
    obtain ⟨d, ds, hdb⟩ : ∃ d ds, dbFilter files = d :: ds := by
      cases h2 : dbFilter files with
      | nil => exact absurd h2 hnem
      | cons d ds => exact ⟨d, ds, rfl⟩
    have hfs : ∃ x ∈ d :: ds, (fun f => f.name == en) x = true := by
      obtain ⟨f, hf, hn⟩ := hex
      rw [hdb] at hf
      exact ⟨f, hf, by simp [hn]⟩
    have hsome : (List.find? (fun f => f.name == en) (d :: ds)).isSome := List.find?_isSome.mpr hfs
    obtain ⟨g, hg⟩ := Option.isSome_iff_exists.mp hsome
    refine ⟨g, ?_, ?_, ?_⟩
    · simp only [pickRemoteDb, hdb, pickByName, if_neg hne, hg]
    · simpa using List.find?_some hg
    · rw [hdb]
      exact List.mem_of_find?_eq_some hg
  · intro files en hne hno hnem
    obtain ⟨d, ds, hdb⟩ : ∃ d ds, dbFilter files = d :: ds := by
      cases h2 : dbFilter files with
      | nil => exact absurd h2 hnem
      | cons d ds => exact ⟨d, ds, rfl⟩
    have hfind : List.find? (fun f => f.name == en) (d :: ds) = none := by
      apply List.find?_eq_none.mpr
      intro x hx
      simp only [beq_iff_eq]
      exact hno x (by rw [hdb]; exact hx)
    refine ⟨maxByEpoch d ds, ?_, ?_, ?_⟩
    · simp only [pickRemoteDb, hdb, pickByName, if_neg hne, hfind]
    · rw [hdb]
      exact maxByEpoch_mem ds d
    · intro g hg
      rw [hdb] at hg
      exact maxByEpoch_le ds d g hg
  · intro files en hdb
    exact pickRemoteDb_nil files en hdb

/-- Witness for C3's amended theorem: concrete listings where an exact
match exists (first conjunct) and where none does (second conjunct). -/
theorem pick_remote_db_selection_witness :
    (∃ f, pickRemoteDb c3WFiles (some c3WName) = some f ∧ f.name = c3WName ∧
      f ∈ dbFilter c3WFiles) ∧
    (∃ f, pickRemoteDb c3WFiles (some c3WMiss) = some f ∧ f ∈ dbFilter c3WFiles ∧
      ∀ g ∈ dbFilter c3WFiles, remoteEpoch g ≤ remoteEpoch f) :=
  ⟨pick_remote_db_selection.1 c3WFiles c3WName (by decide) (by decide),
    pick_remote_db_selection.2.1 c3WFiles c3WMiss (by decide) (by decide) (by decide)⟩

/-- Claim C10: `_pick_remote_db` only ever returns entries whose name
ends in `.db` case-insensitively; a listing with no such entry yields no
candidate even if an entry matches the local name exactly; and for a local
name that does not end in `.db` the name-match branch can never fire, so
selection behaves exactly as if no expected name had been given. -/
theorem pick_remote_db_db_only :
    (∀ (files : List RemoteFile) (en : Option String) (f : RemoteFile),
      pickRemoteDb files en = some f → isDbName f = true) ∧
    (∀ (files : List RemoteFile) (en : Option String),
      (∀ f ∈ files, isDbName f = false) → pickRemoteDb files en = none) ∧
    (∀ (files : List RemoteFile) (en : String),
      strEndsWith (strLower en) dbSuffix = false →
      pickRemoteDb files (some en) = pickRemoteDb files none) := by
  refine ⟨?_, ?_, ?_⟩
  · intro files en f h
    exact mem_dbFilter_isDb files f (pickRemoteDb_mem files en f h)
  · intro files en hall
    apply pickRemoteDb_nil
    apply List.filter_eq_nil_iff.mpr
    intro a ha
    rw [hall a ha]
    simp
  · intro files en hnd
    cases h2 : dbFilter files with
    | nil => rw [pickRemoteDb_nil files (some en) h2, pickRemoteDb_nil files none h2]
    | cons d ds =>
      have hfind : List.find? (fun f => f.name == en) (d :: ds) = none := by
        apply List.find?_eq_none.mpr
        intro x hx
        simp only [beq_iff_eq]
        intro hname
        have hd := mem_dbFilter_isDb files x (by rw [h2]; exact hx)
        unfold isDbName at hd
        rw [hname, hnd] at hd
        cases hd
      by_cases he : en = ""
      · simp only [pickRemoteDb, h2, pickByName, if_pos he]
      · simp only [pickRemoteDb, h2, pickByName, if_neg he, hfind]

/-- Witness for C10: a listing with only a non-`.db` exact-name match
yields no candidate, and a non-`.db` expected name selects the same entry
as no expected name at all. -/
theorem pick_remote_db_db_only_witness :
    pickRemoteDb c10OnlyTxt (some c10Name) = none ∧
    pickRemoteDb c10Files (some c10Name) = pickRemoteDb c10Files none :=
  ⟨pick_remote_db_db_only.2.1 c10OnlyTxt (some c10Name) (by decide),
    pick_remote_db_db_only.2.2 c10Files c10Name (by decide)⟩

/-- Claim C4 (counterexample): a first `newest_wins_sync` call performs a
successful Download (remote epoch 100, download writes the temp at time
150), and an immediate second call on the unchanged state returns Upload,
not NoOp: the installed file keeps the temp file's fresh mtime 150, which
exceeds the remote's modifiedTime 100. -/
theorem sync_not_idempotent_counterexample :
    c4Run1.res = Except.ok Action.download ∧
    c4Run2.res = Except.ok Action.upload ∧
    c4Run2.res ≠ Except.ok Action.noop := by decide

/-- Claim C4 (amended): the orchestrator is not idempotent in general;
the second call returns NoOp precisely when the converged state carries no
distinguishing signal.  With the local replica's mtime `m` and content size
equal to the candidate's reported size: if `m` equals the candidate's
modifiedTime the second call returns NoOp, and if `m` exceeds it (the
normal situation after a Download, whose installed mtime is the download
wall-clock time) the second call returns Upload. -/
theorem sync_second_call_decision (env : SyncEnv) (dir base : String) (fs : Fs)
    (files : List RemoteFile) (r : RemoteFile) (m : ℚ) (bs : List Nat)
    (hl : env.listing = Except.ok files)
    (hp : pickRemoteDb files (some base) = some r)
    (hloc : fs (dstPath dir base) = some ⟨m, bs⟩)
    (hsize : bs.length = remoteSize r) :
    (m = remoteEpoch r → (newestWinsSync env dir base fs).res = Except.ok Action.noop) ∧
    (m > remoteEpoch r → env.up = Except.ok () →
      (newestWinsSync env dir base fs).res = Except.ok Action.upload) := by
  have he : fsEpoch fs (dstPath dir base) = m := by simp [fsEpoch, hloc]
  have hs : fsSize fs (dstPath dir base) = bs.length := by simp [fsSize, hloc]
  constructor
  · intro hm
    have hdec : decideDirection (fsEpoch fs (dstPath dir base)) (fsSize fs (dstPath dir base))
        (remoteEpoch r) (remoteSize r) = Action.noop := by
      rw [he, hs]
      unfold decideDirection
      rw [if_neg, if_neg]
      · rintro (h | ⟨h0, hpos, hne⟩)
        · exact absurd hm (ne_of_gt h)
        · exact hne hsize
      · rintro (h | ⟨h0, hpos, hne⟩)
        · exact absurd hm (ne_of_lt h)
        · exact hne hsize.symm
    simp [newestWinsSync, hl, hp, hdec]
  · intro hm hup
    have hdec : decideDirection (fsEpoch fs (dstPath dir base)) (fsSize fs (dstPath dir base))
        (remoteEpoch r) (remoteSize r) = Action.upload := by
      rw [he, hs]
      unfold decideDirection
      rw [if_neg, if_pos]
      · exact Or.inl hm
      · rintro (h | ⟨h0, hpos, hne⟩)
        · exact absurd (lt_trans h hm) (lt_irrefl _)
        · exact hne hsize.symm
    simp [newestWinsSync, hl, hp, hdec, hup]

/-- Witness for C4's amended theorem, at a converged state (NoOp) and a
fresher-local state (Upload). -/
theorem sync_second_call_decision_witness :
    (newestWinsSync c4WEnv c4WDir c4WDb c4WFs).res = Except.ok Action.noop ∧
    (newestWinsSync c4WEnv c4WDir c4WDb c4WFs2).res = Except.ok Action.upload :=
  ⟨(sync_second_call_decision c4WEnv c4WDir c4WDb c4WFs [c4WRemote] c4WRemote 100 [1, 2, 3]
      rfl (by decide) (by decide) (by decide)).1 (by decide),
    (sync_second_call_decision c4WEnv c4WDir c4WDb c4WFs2 [c4WRemote] c4WRemote 150 [1, 2, 3]
      rfl (by decide) (by decide) (by decide)).2 (by decide) rfl⟩

/-- Claim C5 (counterexample): when the destination file is itself named
`takeout.db.download.tmp`, the download branch deletes it as a stale temp
before fetching; a zero-byte fetch then raises the empty-content error with
the destination no longer holding its prior content and mtime. -/
theorem zero_byte_guard_counterexample :
    (newestWinsSync c5Env c5Dir c5Base c5Fs).res = Except.error Err.ioEmpty ∧
    (newestWinsSync c5Env c5Dir c5Base c5Fs).fs (dstPath c5Dir c5Base) = none ∧
    c5Fs (dstPath c5Dir c5Base) = some ⟨50, [1, 2, 3]⟩ := by decide

/-- Claim C5 (amended): provided the destination's file name is not the
fixed temp name `takeout.db.download.tmp`, a download-branch run whose
fetched temp file has zero bytes raises the empty-content error, deletes
the temp file, and leaves the destination's content and mtime exactly as
they were before the call. -/
theorem zero_byte_guard_frame (env : SyncEnv) (dir base : String) (fs : Fs)
    (files : List RemoteFile) (r : RemoteFile)
    (hb : base ≠ tmpName)
    (hl : env.listing = Except.ok files)
    (hp : pickRemoteDb files (some base) = some r)
    (hd : decideDirection (fsEpoch fs (dstPath dir base)) (fsSize fs (dstPath dir base))
      (remoteEpoch r) (remoteSize r) = Action.download)
    (he : env.dl = Except.ok (some [])) :
    (newestWinsSync env dir base fs).res = Except.error Err.ioEmpty ∧
    (newestWinsSync env dir base fs).fs (tmpPath dir) = none ∧
    (newestWinsSync env dir base fs).fs (dstPath dir base) = fs (dstPath dir base) := by
  have hrun : newestWinsSync env dir base fs =
      ⟨Except.error Err.ioEmpty,
        fsSet (fsSet (fsSet fs (tmpPath dir) none) (tmpPath dir) (some ⟨env.dlMtime, []⟩))
          (tmpPath dir) none⟩ := by
    simp [newestWinsSync, hl, hp, hd, he]
  rw [hrun]
  have hne := dstPath_ne_tmpPath dir base hb
  refine ⟨rfl, ?_, ?_⟩
  · simp [fsSet]
  · simp [fsSet, hne]

/-- Witness for C5's amended theorem at a concrete zero-byte download. -/
theorem zero_byte_guard_frame_witness :
    (newestWinsSync c5WEnv c5WDir c5WDb c5WFs).res = Except.error Err.ioEmpty ∧
    (newestWinsSync c5WEnv c5WDir c5WDb c5WFs).fs (tmpPath c5WDir) = none ∧
    (newestWinsSync c5WEnv c5WDir c5WDb c5WFs).fs (dstPath c5WDir c5WDb) =
      c5WFs (dstPath c5WDir c5WDb) :=
  zero_byte_guard_frame c5WEnv c5WDir c5WDb c5WFs [c5WRemote] c5WRemote (by decide) rfl
    (by decide) (by decide) rfl

/-- Claim C6: when every rename attempt of `_safe_replace` fails with a
contention (`PermissionError`) and the shadow-copy fallback then also fails
(at its copy, rename or source-removal step), the error propagated to the
caller is the loop's contention error (`last_err`, the one recorded at the
final attempt), not the fallback's own error. -/
theorem safe_replace_keeps_contention_error (env : SafeEnv) (src dst : String)
    (fs : Fs) (d : FileData) (n : Nat) (k : Nat → Nat) (b : ℚ)
    (hsrc : fs src = some d)
    (hperm : ∀ j, j < n + 1 → env.attemptOut j = ReplaceStep.permDenied (k j))
    (hfb : env.copyOut.isSome = true ∨ env.shadowReplaceOut.isSome = true ∨
      env.removeSrcOut.isSome = true) :
    (safeReplace env src dst fs (n + 1) b).res = Except.error (Err.permission (k n)) := by
  have hloop := safeLoop_all_perm env src dst b k n 0 none fs
    (fun j h1 h2 => hperm j (by omega))
  simp only [safeReplace, hsrc, hloop]
  rw [Nat.zero_add]
  exact safeReplaceFallback_err env src dst _ _ hfb

/-- Witness for C6: eight contention failures with a failing fallback
propagate the contention error of attempt 7. -/
theorem safe_replace_keeps_contention_error_witness :
    (safeReplace c6Env c6Src c6Dst c6Fs 8 0).res = Except.error (Err.permission 7) :=
  safe_replace_keeps_contention_error c6Env c6Src c6Dst c6Fs c6D 7 (fun j => j) 0
    (by decide) (by decide) (Or.inl (by decide))

/-- Claim C7: the retry loop of `_safe_replace` performs at most
`retries` (by default 8) rename attempts; an error other than contention at
attempt `i` (after contention-only failures) propagates immediately — the
result is that error, exactly `i + 1` attempts were made and only the `i`
preceding contention failures slept; and when every attempt fails with
contention, all 8 attempts run and the successive delays are
`base * 2 ^ t` for `t = 0, …, 7`, doubling each attempt from the base.
Each attempt repeats sidecar cleanup and the writable-clear by
construction of `safeLoop`. -/
theorem safe_replace_retry_policy :
    (∀ (env : SafeEnv) (src dst : String) (fs : Fs) (b : ℚ) (retries : Nat),
      (safeReplace env src dst fs retries b).attempts ≤ retries) ∧
    (∀ (env : SafeEnv) (src dst : String) (fs : Fs) (b : ℚ) (k : Nat → Nat) (i : Nat) (e : Err),
      i < 8 → (∀ j, j < i → env.attemptOut j = ReplaceStep.permDenied (k j)) →
      env.attemptOut i = ReplaceStep.hardFail e → fs src ≠ none →
      (safeReplace env src dst fs 8 b).res = Except.error e ∧
      (safeReplace env src dst fs 8 b).attempts = i + 1 ∧
      (safeReplace env src dst fs 8 b).sleeps = (List.range i).map (fun t => b * 2 ^ t)) ∧
    (∀ (env : SafeEnv) (src dst : String) (fs : Fs) (b : ℚ) (k : Nat → Nat),
      (∀ j, j < 8 → env.attemptOut j = ReplaceStep.permDenied (k j)) → fs src ≠ none →
      (safeReplace env src dst fs 8 b).attempts = 8 ∧
      (safeReplace env src dst fs 8 b).sleeps = (List.range 8).map (fun t => b * 2 ^ t)) := by
  refine ⟨?_, ?_, ?_⟩
  · intro env src dst fs b retries
    cases hsrc : fs src with
    | none => simp [safeReplace, hsrc]
    | some d =>
      simp only [safeReplace, hsrc]
      cases hex : (safeLoop env src dst b retries 0 none fs).exit with
      | success fs2 => simp only [hex]; exact safeLoop_attempts_le env src dst b retries 0 none fs
      | raised e fs2 => simp only [hex]; exact safeLoop_attempts_le env src dst b retries 0 none fs
      | exhausted le fs2 => simp only [hex]; exact safeLoop_attempts_le env src dst b retries 0 none fs
  · intro env src dst fs b k i e hi hpre hf hsrc
    obtain ⟨d, hd⟩ : ∃ d, fs src = some d := by
      cases h2 : fs src with
      | none => exact absurd h2 hsrc
      | some d => exact ⟨d, rfl⟩
    have hloop : safeLoop env src dst b 8 0 none fs =
        ⟨LoopExit.raised e (cleanupSidecars dst fs), i + 1,
          (List.range i).map (fun t => b * 2 ^ (0 + t))⟩ :=
      safeLoop_hardFail env src dst b k e i 8 0 none fs hi
        (fun j hj => by simpa using hpre j hj) (by simpa using hf)
    simp only [safeReplace, hd, hloop]
    refine ⟨trivial, trivial, ?_⟩
    apply List.map_congr_left
    intro t ht
    rw [Nat.zero_add]
  · intro env src dst fs b k hperm hsrc
    obtain ⟨d, hd⟩ : ∃ d, fs src = some d := by
      cases h2 : fs src with
      | none => exact absurd h2 hsrc
      | some d => exact ⟨d, rfl⟩
    have hloop : safeLoop env src dst b 8 0 none fs =
        ⟨LoopExit.exhausted (some (Err.permission (k (0 + 7)))) (cleanupSidecars dst fs), 7 + 1,
          (List.range (7 + 1)).map (fun t => b * 2 ^ (0 + t))⟩ :=
      safeLoop_all_perm env src dst b k 7 0 none fs (fun j h1 h2 => hperm j (by omega))
    simp only [safeReplace, hd, hloop]
    refine ⟨trivial, ?_⟩
    apply List.map_congr_left
    intro t ht
    rw [Nat.zero_add]

/-- Witness for C7: two contention failures followed by a distinct hard
failure at attempt 2 stop the loop after 3 attempts with 2 sleeps. -/
theorem safe_replace_retry_policy_witness :
    (safeReplace c7Env c7Src c7Dst c7Fs 8 0).res = Except.error c7E ∧
    (safeReplace c7Env c7Src c7Dst c7Fs 8 0).attempts = 2 + 1 ∧
    (safeReplace c7Env c7Src c7Dst c7Fs 8 0).sleeps =
      (List.range 2).map (fun t => (0 : ℚ) * 2 ^ t) :=
  safe_replace_retry_policy.2.1 c7Env c7Src c7Dst c7Fs 0 (fun j => j) 2 c7E (by decide)
    (by decide) (by decide) (by decide)

/-- Claim C8 (amended): when the temp source is missing, `_safe_replace`
aborts immediately with a fatal `FileNotFoundError`, performs no rename
attempt, and leaves the whole filesystem — destination and sidecars
included — completely untouched.  (The zero-byte check of the claim is
performed by the orchestrator before invoking the replace, not by
`_safe_replace` itself; see the counterexample.) -/
theorem safe_replace_missing_source (env : SafeEnv) (src dst : String) (fs : Fs)
    (retries : Nat) (b : ℚ) (h : fs src = none) :
    safeReplace env src dst fs retries b = ⟨Except.error Err.notFound, fs, 0, []⟩ := by
  simp [safeReplace, h]

/-- Witness for C8's amended theorem at a concrete missing source. -/
theorem safe_replace_missing_source_witness :
    safeReplace c8Env c8Src c8Dst c8Fs 8 0 = ⟨Except.error Err.notFound, c8Fs, 0, []⟩ :=
  safe_replace_missing_source c8Env c8Src c8Dst c8Fs 8 0 (by decide)

/-- Claim C8 (counterexample): called on an existing zero-byte temp
source, `_safe_replace` does not abort: it succeeds, removes the
destination's sidecar and installs the empty file over the destination —
there is no non-emptiness precondition in `_safe_replace` (sync.py lines
24-30 check existence only). -/
theorem safe_replace_empty_source_counterexample :
    c8CFs c8CSrc = some ⟨7, []⟩ ∧
    (safeReplace c8CEnv c8CSrc c8CDst c8CFs 8 0).res = Except.ok () ∧
    (safeReplace c8CEnv c8CSrc c8CDst c8CFs 8 0).fs c8CDst = some ⟨7, []⟩ ∧
    (safeReplace c8CEnv c8CSrc c8CDst c8CFs 8 0).fs (c8CDst ++ "-journal") = none ∧
    c8CFs (c8CDst ++ "-journal") = some ⟨1, []⟩ := by decide

/-- Claim C9 (counterexample): when the destination file is itself named
`takeout.db.download.tmp`, the stale-temp removal (sync.py lines 103-107)
deletes the local replica before the download; a download failure
(transport error) then propagates with the local replica already gone, so
a failure before Atomic Replace does not leave the replica as it was. -/
theorem pre_replace_frame_counterexample :
    (newestWinsSync c9Env c9Dir c9Base c9Fs).res = Except.error (Err.transport 9) ∧
    (newestWinsSync c9Env c9Dir c9Base c9Fs).fs (dstPath c9Dir c9Base) = none ∧
    c9Fs (dstPath c9Dir c9Base) = some ⟨50, [1, 2, 3]⟩ := by decide

/-- Claim C9 (amended): provided the destination's file name is not the
fixed temp name `takeout.db.download.tmp`, the local replica is mutated
only inside the Atomic Replace step: a remote-listing failure returns with
the filesystem untouched; in the download branch, a download error, a
missing temp or an empty temp leave the destination exactly as it was; and
no-candidate, upload and no-op runs never touch the filesystem at all. -/
theorem pre_replace_frame (env : SyncEnv) (dir base : String) (fs : Fs)
    (hb : base ≠ tmpName) :
    (∀ e, env.listing = Except.error e →
      newestWinsSync env dir base fs = ⟨Except.error e, fs⟩) ∧
    (∀ files r, env.listing = Except.ok files → pickRemoteDb files (some base) = some r →
      decideDirection (fsEpoch fs (dstPath dir base)) (fsSize fs (dstPath dir base))
        (remoteEpoch r) (remoteSize r) = Action.download →
      (∀ e, env.dl = Except.error e →
        (newestWinsSync env dir base fs).res = Except.error e ∧
        (newestWinsSync env dir base fs).fs (dstPath dir base) = fs (dstPath dir base)) ∧
      (env.dl = Except.ok none →
        (newestWinsSync env dir base fs).res = Except.error Err.notFound ∧
        (newestWinsSync env dir base fs).fs (dstPath dir base) = fs (dstPath dir base)) ∧
      (∀ bs, env.dl = Except.ok (some bs) → bs.length = 0 →
        (newestWinsSync env dir base fs).res = Except.error Err.ioEmpty ∧
        (newestWinsSync env dir base fs).fs (dstPath dir base) = fs (dstPath dir base))) ∧
    (∀ files, env.listing = Except.ok files → pickRemoteDb files (some base) = none →
      (newestWinsSync env dir base fs).fs = fs) ∧
    (∀ files r, env.listing = Except.ok files → pickRemoteDb files (some base) = some r →
      decideDirection (fsEpoch fs (dstPath dir base)) (fsSize fs (dstPath dir base))
        (remoteEpoch r) (remoteSize r) ≠ Action.download →
      (newestWinsSync env dir base fs).fs = fs) := by
  have hne := dstPath_ne_tmpPath dir base hb
  refine ⟨?_, ?_, ?_, ?_⟩
  · intro e hl
    simp [newestWinsSync, hl]
  · intro files r hl hp hd
    refine ⟨?_, ?_, ?_⟩
    · intro e hdl
      have hrun : newestWinsSync env dir base fs =
          ⟨Except.error e, fsSet fs (tmpPath dir) none⟩ := by
        simp [newestWinsSync, hl, hp, hd, hdl]
      rw [hrun]
      exact ⟨rfl, by simp [fsSet, hne]⟩
    · intro hdl
      have hrun : newestWinsSync env dir base fs =
          ⟨Except.error Err.notFound, fsSet fs (tmpPath dir) none⟩ := by
        simp [newestWinsSync, hl, hp, hd, hdl]
      rw [hrun]
      exact ⟨rfl, by simp [fsSet, hne]⟩
    · intro bs hdl hlen
      have hrun : newestWinsSync env dir base fs =
          ⟨Except.error Err.ioEmpty,
            fsSet (fsSet (fsSet fs (tmpPath dir) none) (tmpPath dir)
              (some ⟨env.dlMtime, bs⟩)) (tmpPath dir) none⟩ := by
        simp [newestWinsSync, hl, hp, hd, hdl, hlen]
      rw [hrun]
      exact ⟨rfl, by simp [fsSet, hne]⟩
  · intro files hl hp
    simp only [newestWinsSync, hl, hp]
    by_cases h2 : (fs (dstPath dir base)).isSome
    · cases hup : env.up with
      | error e => simp [h2, hup]
      | ok u => simp [h2, hup]
    · simp [h2]
  · intro files r hl hp hd
    cases hd2 : decideDirection (fsEpoch fs (dstPath dir base)) (fsSize fs (dstPath dir base))
        (remoteEpoch r) (remoteSize r) with
    | download => exact absurd hd2 hd
    | upload =>
      simp only [newestWinsSync, hl, hp, hd2]
      cases hup : env.up with
      | error e => simp [hup]
      | ok u => simp [hup]
    | noop => simp [newestWinsSync, hl, hp, hd2]

/-- Witness for C9's amended theorem: a failing download propagates its
transport error and leaves the destination unchanged. -/
theorem pre_replace_frame_witness :
    (newestWinsSync c9WEnv c9WDir c9WDb c9WFs).res = Except.error (Err.transport 1) ∧
    (newestWinsSync c9WEnv c9WDir c9WDb c9WFs).fs (dstPath c9WDir c9WDb) =
      c9WFs (dstPath c9WDir c9WDb) :=
  ((pre_replace_frame c9WEnv c9WDir c9WDb c9WFs (by decide)).2.1 [c9WRemote] c9WRemote rfl
    (by decide) (by decide)).1 (Err.transport 1) rfl

end TakeoutSync
